import Mathlib

/-!
Shallow embedding of the lmshao/network transport library core, translated
from the C++ sources, together with proofs about it.

Covered source files:
- src/src/data_buffer.cpp       (DataBuffer, buffer pool)
- src/src/task_queue.cpp        (TaskQueue start/stop/enqueue)
- src/src/platforms/linux/tcp_server_impl.cpp
  (TcpConnectionHandler send queue, TcpServerImpl accept/receive/close/send)
- src/src/platforms/linux/udp_server_impl.cpp (UdpServerImpl receive)

Modelling conventions:
- Bytes are Nat; raw memory is a total function Nat -> Nat (index to byte).
  A fresh heap allocation (new uint8_t[n]) yields uninitialized memory,
  modelled by an arbitrary function passed in as a `junk` parameter.
- A C pointer that may be null is an Option; `dataPresent` mirrors the
  nullness of DataBuffer::data_.
- Kernel I/O calls (send/recv/accept4/recvfrom) are modelled by response
  oracles supplied as explicit arguments: each call consumes one response.
- errno values use their Linux numeric values; on Linux EWOULDBLOCK and
  EAGAIN are the same value (11).
-/

namespace NetworkModel

/-! ## DataBuffer (src/src/data_buffer.cpp) -/

/-- DATA_ALIGN from data_buffer.cpp. -/
def DATA_ALIGN : Nat := 8

/-- The static align helper: round len up to a multiple of DATA_ALIGN. -/
def align (len : Nat) : Nat := (len + DATA_ALIGN - 1) / DATA_ALIGN * DATA_ALIGN

/-- POOL_BLOCK_SIZE from data_buffer.cpp. -/
def POOL_BLOCK_SIZE : Nat := 4096

/-- POOL_GLOBAL_MAX from data_buffer.cpp. -/
def POOL_GLOBAL_MAX : Nat := 1024

/-- POOL_LOCAL_MAX from data_buffer.cpp. -/
def POOL_LOCAL_MAX : Nat := 32

/-- Model of class DataBuffer: `mem` is the byte array contents (meaningful
on indices below `capacity`), `dataPresent` mirrors `data_ != nullptr`,
and `size`/`capacity` mirror `size_`/`capacity_`. -/
structure DataBuffer where
  dataPresent : Bool
  mem : Nat → Nat
  size : Nat
  capacity : Nat

/-- Write a single byte: `m[i] = v`. -/
def setByte (m : Nat → Nat) (i v : Nat) : Nat → Nat :=
  fun j => if j = i then v else m j

/-- Model of `memcpy(dst + off, src, len)`. -/
def memcpy (dst : Nat → Nat) (off : Nat) (src : Nat → Nat) (len : Nat) :
    Nat → Nat :=
  fun j => if off ≤ j ∧ j < off + len then src (j - off) else dst j

/-- Constructor `DataBuffer::DataBuffer(size_t len)`: when len is nonzero it
allocates `align len` bytes, sets size to 0 and writes `data_[0] = 0`;
when len is 0 all members stay at their defaults (null data). -/
def DataBuffer.new (len : Nat) (junk : Nat → Nat) : DataBuffer :=
  if len = 0 then
    { dataPresent := false, mem := junk, size := 0, capacity := 0 }
  else
    { dataPresent := true, mem := setByte junk 0 0, size := 0,
      capacity := align len }

/-- The repeated idiom `if (size_ < capacity_) data_[size_] = 0;` that closes
Assign, Append and SetSize. -/
def DataBuffer.nulFix (b : DataBuffer) : DataBuffer :=
  if b.size < b.capacity then { b with mem := setByte b.mem b.size 0 } else b

/-- `DataBuffer::Assign(const void *p, size_t len)`. A null `p` or zero `len`
returns without change; a `len` above capacity reallocates to `align len`
fresh (junk) bytes; then the payload is copied, the size set, and a NUL
written after the payload when room remains. -/
def DataBuffer.assign (b : DataBuffer) (p : Option (Nat → Nat)) (len : Nat)
    (junk : Nat → Nat) : DataBuffer :=
  match p with
  | none => b
  | some src =>
    if len = 0 then b
    else
      let b1 := if b.capacity < len then
          { b with dataPresent := true, capacity := align len, mem := junk }
        else b
      DataBuffer.nulFix { b1 with mem := memcpy b1.mem 0 src len, size := len }

/-- `DataBuffer::Append(const void *p, size_t len)`. Null/zero input is a
no-op; if the tail fits it is copied in place, otherwise the buffer is
reallocated to `align (size + len)` and the old payload copied first. -/
def DataBuffer.append (b : DataBuffer) (p : Option (Nat → Nat)) (len : Nat)
    (junk : Nat → Nat) : DataBuffer :=
  match p with
  | none => b
  | some src =>
    if len = 0 then b
    else
      if len + b.size ≤ b.capacity then
        DataBuffer.nulFix
          { b with mem := memcpy b.mem b.size src len, size := b.size + len }
      else
        let m0 := if b.dataPresent then memcpy junk 0 b.mem b.size else junk
        DataBuffer.nulFix
          { dataPresent := true, mem := memcpy m0 b.size src len,
            size := b.size + len, capacity := align (b.size + len) }

/-- `DataBuffer::SetSize(size_t len)`. Within capacity it just moves `size_`
and re-NUL-terminates; beyond capacity it reallocates to `align len`
(copying the old `size_` bytes when data was present). -/
def DataBuffer.setSize (b : DataBuffer) (len : Nat) (junk : Nat → Nat) :
    DataBuffer :=
  if len ≤ b.capacity then
    let b2 := { b with size := len }
    if b.dataPresent ∧ len < b.capacity then
      { b2 with mem := setByte b2.mem len 0 }
    else b2
  else
    let m0 := if b.dataPresent then memcpy junk 0 b.mem b.size else junk
    DataBuffer.nulFix
      { dataPresent := true, mem := m0, size := len, capacity := align len }

/-- `DataBuffer::Clear()`: size goes to 0 and, when data is present with
nonzero capacity, `data_[0] = 0`. -/
def DataBuffer.clear (b : DataBuffer) : DataBuffer :=
  let b2 := { b with size := 0 }
  if b.dataPresent ∧ 0 < b.capacity then
    { b2 with mem := setByte b2.mem 0 0 }
  else b2

/-! ## Buffer pool (DataBuffer::PoolAlloc / DataBuffer::PoolFree) -/

/-- The two recycling tiers: `t_localPool` (thread-local vector) and
`g_bufferPool` (global vector). A vector used as a stack via
push_back/back/pop_back is modelled as a list whose head is the
vector's back. -/
structure PoolState where
  tLocalPool : List DataBuffer
  gBufferPool : List DataBuffer

/-- `DataBuffer::PoolAlloc(size_t len)`. Result: the returned buffer, a flag
telling whether the shared_ptr got the pool-returning deleter (`PoolFree`)
rather than plain delete, and the pool state afterwards. Requests above
POOL_BLOCK_SIZE bypass the pool; otherwise the thread-local tier, then the
global tier, is popped (resetting size to 0) and only if both are empty is
a fresh POOL_BLOCK_SIZE buffer allocated. -/
def poolAlloc (len : Nat) (pool : PoolState) (junk : Nat → Nat) :
    DataBuffer × Bool × PoolState :=
  if POOL_BLOCK_SIZE < len then
    (DataBuffer.new len junk, false, pool)
  else
    match pool.tLocalPool with
    | b :: rest => (b.setSize 0 junk, true, { pool with tLocalPool := rest })
    | [] =>
      match pool.gBufferPool with
      | b :: rest =>
        (b.setSize 0 junk, true, { pool with gBufferPool := rest })
      | [] => (DataBuffer.new POOL_BLOCK_SIZE junk, true, pool)

/-- `DataBuffer::PoolFree(DataBuffer *buf)` (the non-null case). Returns the
pool afterwards and whether the buffer was freed (deleted) instead of
recycled. Only exactly pool-block-sized buffers are recycled: first into
the thread-local tier while it has fewer than POOL_LOCAL_MAX entries, then
into the global tier while it has fewer than POOL_GLOBAL_MAX entries. -/
def poolFree (b : DataBuffer) (pool : PoolState) : PoolState × Bool :=
  if b.capacity ≠ POOL_BLOCK_SIZE then (pool, true)
  else if pool.tLocalPool.length < POOL_LOCAL_MAX then
    ({ pool with tLocalPool := b.clear :: pool.tLocalPool }, false)
  else if pool.gBufferPool.length < POOL_GLOBAL_MAX then
    ({ pool with gBufferPool := b.clear :: pool.gBufferPool }, false)
  else (pool, true)

/-- The NUL-termination invariant on a DataBuffer: when size is strictly
below capacity and the data pointer is non-null, the byte right after the
stored payload is 0. -/
def nulTerminated (b : DataBuffer) : Prop :=
  b.size < b.capacity → b.dataPresent = true → b.mem b.size = 0

/-- Pool well-formedness: every recycled buffer has capacity exactly
POOL_BLOCK_SIZE. PoolFree establishes this by deleting any buffer of a
different capacity instead of recycling it. -/
def PoolWF (pool : PoolState) : Prop :=
  (∀ b ∈ pool.tLocalPool, b.capacity = POOL_BLOCK_SIZE) ∧
  (∀ b ∈ pool.gBufferPool, b.capacity = POOL_BLOCK_SIZE)

/-! ## Basic arithmetic facts about align -/

theorem le_align (len : Nat) : len ≤ align len := by
  unfold align DATA_ALIGN
  have h := Nat.div_add_mod (len + 7) 8
  have h2 : (len + 7) % 8 < 8 := Nat.mod_lt _ (by norm_num)
  omega

theorem align_pool_block : align POOL_BLOCK_SIZE = POOL_BLOCK_SIZE := by
  decide

/-! ## TaskQueue (src/src/task_queue.cpp)

State: `isExit_` (initially true), the worker thread pointer (modelled by
`threadRunning`), and `taskList_`, a list of (task, executeTimeNs) pairs
kept sorted by execution time. Tasks are identified by a Nat; the
`task->Clear()` call inside EnqueueTask resets the task's private result
slot and does not touch queue state, so it has no effect in this model. -/

/-- MAX_DELAY_US from TaskQueue::EnqueueTask. -/
def MAX_DELAY_US : Nat := 10000000

/-- US_TO_NS from TaskQueue::EnqueueTask. -/
def US_TO_NS : Nat := 1000

/-- UINT64_MAX, the bound of the uint64_t nanosecond clock. -/
def UINT64_MAX : Nat := 2 ^ 64 - 1

/-- Model of the TaskQueue members guarded by `mutex_`. -/
structure TaskQueueState where
  isExit : Bool
  threadRunning : Bool
  taskList : List (Nat × Nat)
deriving DecidableEq

/-- `TaskQueue::Start()`: when the worker thread already exists this only
logs and returns 0; otherwise it clears the exit flag, spawns the worker
and returns 0. -/
def TaskQueue.start (s : TaskQueueState) : Int × TaskQueueState :=
  if s.threadRunning then (0, s)
  else (0, { s with isExit := false, threadRunning := true })

/-- `TaskQueue::Stop()`: when `isExit_` is already set this returns 0 at
once; otherwise it sets the exit flag, joins the worker and cancels (and
drops) every still-queued task. -/
def TaskQueue.stop (s : TaskQueueState) : Int × TaskQueueState :=
  if s.isExit then (0, s)
  else (0, { s with isExit := true, threadRunning := false, taskList := [] })

/-- The sorted insertion done by EnqueueTask: find the first item whose
execution time exceeds the new one and insert before it. -/
def insertByTime (item : Nat × Nat) : List (Nat × Nat) → List (Nat × Nat)
  | [] => [item]
  | x :: xs => if item.2 < x.2 then item :: x :: xs else x :: insertByTime item xs

/-- `TaskQueue::EnqueueTask(task, cancelNotExecuted, delayUs)`. The current
steady-clock reading in nanoseconds is passed in as `curTimeNs`. Following
the source order: null task is rejected; the task's result slot is
cleared; `delayUs >= MAX_DELAY_US` is rejected; a stopped queue is
rejected; when requested, all queued tasks are cancelled and dropped; a
64-bit overflow of `delayUs * 1000 + curTimeNs` is rejected; otherwise the
item is inserted in time order and 0 is returned. -/
def TaskQueue.enqueueTask (s : TaskQueueState) (task : Option Nat)
    (cancelNotExecuted : Bool) (delayUs : Nat) (curTimeNs : Nat) :
    Int × TaskQueueState :=
  match task with
  | none => (-1, s)
  | some t =>
    if MAX_DELAY_US ≤ delayUs then (-1, s)
    else if s.isExit then (-1, s)
    else
      let s1 := if cancelNotExecuted then { s with taskList := [] } else s
      if UINT64_MAX - delayUs * US_TO_NS ≤ curTimeNs then (-1, s1)
      else
        (0, { s1 with
              taskList := insertByTime (t, delayUs * US_TO_NS + curTimeNs)
                s1.taskList })

/-! ## TCP connection send queue (TcpConnectionHandler in
src/src/platforms/linux/tcp_server_impl.cpp lines 110-163; the
TcpClientHandler in src/src/platforms/linux/tcp_client_impl.cpp lines
73-126 is byte-for-byte the same algorithm, so one model covers both). -/

/-- Outcome of one non-blocking `send(fd, buf->Data(), buf->Size(),
MSG_NOSIGNAL)` call: `ok n` is a return of n bytes written (the kernel
returns 1 ≤ n ≤ requested size), `errAgain` is -1 with
EAGAIN/EWOULDBLOCK, `errOther` is -1 with any other errno. -/
inductive SendResp where
  | ok (n : Nat)
  | errAgain
  | errOther
deriving DecidableEq

/-- Per-connection handler state: the FIFO send queue (front first, each
entry the byte contents of one queued DataBuffer) and the
`writeEventsEnabled_` flag. -/
structure ConnState where
  sendQueue : List (List Nat)
  writeEventsEnabled : Bool
deriving DecidableEq

/-- The drain loop of `TcpConnectionHandler::ProcessSendQueue`. One kernel
response is consumed per send call. A full write pops the front and
continues; a partial write replaces the front by a pooled copy of exactly
the unsent tail (`PoolAlloc` + `Assign(Data + sent, Size - sent)`) and
breaks; EAGAIN breaks; any other error logs and returns. Returns the
bytes handed to the kernel this turn and the remaining queue. -/
def processSendQueueLoop : List SendResp → List (List Nat) →
    List Nat × List (List Nat)
  | _, [] => ([], [])
  | [], q => ([], q)
  | SendResp.ok n :: rs, buf :: q =>
    if n = buf.length then
      let r := processSendQueueLoop rs q
      (buf ++ r.1, r.2)
    else (buf.take n, buf.drop n :: q)
  | SendResp.errAgain :: _, buf :: q => ([], buf :: q)
  | SendResp.errOther :: _, buf :: q => ([], buf :: q)

/-- `TcpConnectionHandler::ProcessSendQueue` (the whole on_write turn): run
the drain loop, then, if the queue emptied, `DisableWriteEvents()`
clears the write-interest flag (the `errOther` early return skips that
check, but its queue is never empty, so the outcome coincides). -/
def processSendQueue (resp : List SendResp) (c : ConnState) :
    List Nat × ConnState :=
  let r := processSendQueueLoop resp c.sendQueue
  (r.1, { sendQueue := r.2,
          writeEventsEnabled := if r.2.isEmpty then false
            else c.writeEventsEnabled })

/-- `TcpConnectionHandler::QueueSend`: reject a null or empty buffer, else
push onto the queue and `EnableWriteEvents()` (idempotent arming). -/
def queueSend (c : ConnState) (buffer : Option (List Nat)) : ConnState :=
  match buffer with
  | none => c
  | some bs =>
    if bs.length = 0 then c
    else { sendQueue := c.sendQueue ++ [bs], writeEventsEnabled := true }

/-! ## TcpServerImpl (src/src/platforms/linux/tcp_server_impl.cpp) -/

/-- Linux errno values used by the receive path. On Linux EWOULDBLOCK is
the same number as EAGAIN. -/
def EAGAIN : Nat := 11

/-- EWOULDBLOCK equals EAGAIN on Linux. -/
def EWOULDBLOCK : Nat := 11

/-- ETIMEDOUT errno value. -/
def ETIMEDOUT : Nat := 110

/-- RECV_BUFFER_MAX_SIZE from tcp_server_impl.cpp. -/
def RECV_BUFFER_MAX_SIZE : Nat := 4096

/-- The peer identity of one accepted connection: descriptor plus the
host/port taken from accept4's sockaddr. -/
structure ClientInfo where
  fd : Nat
  host : String
  port : Nat
deriving DecidableEq

/-- A user-callback task enqueued on the endpoint's serial task queue.
The `onError` reason carries the errno whose `strerror` string the source
passes (the code stands for its message string). -/
inductive TaskEvt where
  | onAccept (fd : Nat) (host : String) (port : Nat)
  | onReceive (fd : Nat) (payload : List Nat)
  | onError (fd : Nat) (errnoCode : Nat)
  | onClose (fd : Nat)
deriving DecidableEq

/-- Association-list lookup keyed by descriptor (std::unordered_map find). -/
def lookupFd {α : Type} (fd : Nat) (l : List (Nat × α)) : Option α :=
  (l.find? (fun kv => kv.1 == fd)).map Prod.snd

/-- Erase the (unique) entry with the given key (std::unordered_map erase). -/
def eraseFd {α : Type} (fd : Nat) (l : List (Nat × α)) : List (Nat × α) :=
  l.eraseP (fun kv => kv.1 == fd)

/-- Map subscript assignment `m[fd] = v`: replace the existing entry or
append a new one. -/
def setFd {α : Type} (fd : Nat) (v : α) (l : List (Nat × α)) :
    List (Nat × α) :=
  if (lookupFd fd l).isSome then
    l.map (fun kv => if kv.1 == fd then (fd, v) else kv)
  else l ++ [(fd, v)]

/-- Model of a TcpServerImpl together with the observable effects of one
event-handler turn: the kernel's pending accept backlog, the session and
connection-handler maps, the set of descriptors registered with the
reactor, the descriptors passed to close(), the tasks enqueued on the
endpoint's serial task queue (in order), and whether the user listener
and the task queue are alive. -/
structure TcpServerState where
  backlog : List ClientInfo
  sessions : List (Nat × ClientInfo)
  connectionHandlers : List (Nat × ConnState)
  reactorFds : List Nat
  closedFds : List Nat
  tasks : List TaskEvt
  listenerAlive : Bool
  taskQueuePresent : Bool
deriving DecidableEq

/-- `TcpServerImpl::HandleAccept`: one `accept4(..., SOCK_NONBLOCK)` call.
An empty backlog makes accept4 fail (EAGAIN), which is only logged. On
success the connection handler is registered with the reactor (`regOk`
says whether RegisterHandler succeeds; on failure the new descriptor is
closed), recorded in the handler map, a session is recorded, and, when
the listener is alive (and the task queue exists), an OnAccept task is
enqueued. There is no loop: at most one connection is accepted per call. -/
def tcpHandleAccept (regOk : Bool) (st : TcpServerState) : TcpServerState :=
  match st.backlog with
  | [] => st
  | c :: rest =>
    let st1 := { st with backlog := rest }
    if regOk = false then { st1 with closedFds := st1.closedFds ++ [c.fd] }
    else
      let st2 := { st1 with
        connectionHandlers :=
          setFd c.fd { sendQueue := [], writeEventsEnabled := false }
            st1.connectionHandlers,
        reactorFds := st1.reactorFds ++ [c.fd],
        sessions := st1.sessions ++ [(c.fd, c)] }
      if st2.listenerAlive ∧ st2.taskQueuePresent then
        { st2 with tasks := st2.tasks ++ [TaskEvt.onAccept c.fd c.host c.port] }
      else st2

/-- `TcpServerImpl::HandleConnectionClose(fd, isError, reason)`: if the fd
is no longer in the session map the teardown already ran and nothing
happens; otherwise the handler is removed from the reactor, the
descriptor closed, the session and handler map entries erased, and (when
the listener is alive and the task queue exists) an OnError or OnClose
task is enqueued. `reason` is the errno whose strerror string the source
passes along. -/
def tcpHandleConnectionClose (fd : Nat) (isError : Bool) (reason : Nat)
    (st : TcpServerState) : TcpServerState :=
  match lookupFd fd st.sessions with
  | none => st
  | some _ =>
    let st1 := { st with
      reactorFds := st.reactorFds.eraseP (fun x => x == fd),
      closedFds := st.closedFds ++ [fd],
      sessions := eraseFd fd st.sessions,
      connectionHandlers := eraseFd fd st.connectionHandlers }
    if st1.listenerAlive ∧ st1.taskQueuePresent then
      { st1 with tasks := st1.tasks ++
          [if isError then TaskEvt.onError fd reason else TaskEvt.onClose fd] }
    else st1

/-- Outcome of one `recv(fd, buf, 4096, MSG_DONTWAIT)` call: `bytes bs` is
a positive return delivering bs (at most the 4096-byte buffer capacity),
`closed` is a return of 0, `err e` is -1 with errno e. -/
inductive RecvResp where
  | bytes (bs : List Nat)
  | closed
  | err (e : Nat)
deriving DecidableEq

/-- `TcpServerImpl::HandleReceive`: drain loop over recv. Each positive
read (capped by the buffer-size guard) is copied into a fresh DataBuffer
of that length and, when the listener is alive, the session is looked up
and an OnReceive task enqueued (when the task queue exists); then the
loop continues. A zero read (peer half-close) breaks without initiating
teardown. errno EAGAIN breaks; errno ETIMEDOUT is logged and breaks; any
other errno runs HandleConnectionClose with isError = true and the
strerror string, then the turn ends. -/
def tcpHandleReceiveLoop (fd : Nat) :
    List RecvResp → TcpServerState → TcpServerState
  | [], st => st
  | RecvResp.bytes bs :: rs, st =>
    if RECV_BUFFER_MAX_SIZE < bs.length then st
    else
      let st1 :=
        if st.listenerAlive then
          match lookupFd fd st.sessions with
          | some _ =>
            if st.taskQueuePresent then
              { st with tasks := st.tasks ++ [TaskEvt.onReceive fd bs] }
            else st
          | none => st
        else st
      tcpHandleReceiveLoop fd rs st1
  | RecvResp.closed :: _, st => st
  | RecvResp.err e :: _, st =>
    if e = EAGAIN then st
    else if e = ETIMEDOUT then st
    else tcpHandleConnectionClose fd true e st

/-- `TcpServerImpl::Send(fd, host, port, std::shared_ptr<DataBuffer>)`: a
null or empty buffer returns false untouched; an fd with no session
returns false; otherwise the buffer is handed to the connection handler's
QueueSend and true is returned. -/
def tcpServerSend (st : TcpServerState) (fd : Nat)
    (buffer : Option (List Nat)) : Bool × TcpServerState :=
  match buffer with
  | none => (false, st)
  | some bs =>
    if bs.length = 0 then (false, st)
    else
      match lookupFd fd st.sessions with
      | none => (false, st)
      | some _ =>
        match lookupFd fd st.connectionHandlers with
        | some h =>
          let handlers := setFd fd (queueSend h (some bs)) st.connectionHandlers
          (true, { st with connectionHandlers := handlers })
        | none => (false, st)

/-- `TcpServerImpl::Send(fd, host, port, const void *data, size_t size)`:
null data or zero size returns false; otherwise a pooled buffer is
allocated, assigned the bytes, and passed to the buffer overload. The
pool plumbing is payload-invisible (PoolAlloc + Assign yields a buffer
holding exactly these bytes, proved in the DataBuffer section), so the
model passes the byte list through. -/
def tcpServerSendBytes (st : TcpServerState) (fd : Nat)
    (data : Option (List Nat)) : Bool × TcpServerState :=
  match data with
  | none => (false, st)
  | some bs =>
    if bs.length = 0 then (false, st)
    else tcpServerSend st fd (some bs)

/-- `TcpServerImpl::Send(fd, host, port, const std::string &)`: an empty
string returns false; otherwise the string's bytes go through the buffer
overload. -/
def tcpServerSendString (st : TcpServerState) (fd : Nat) (str : String) :
    Bool × TcpServerState :=
  if str = "" then (false, st)
  else tcpServerSend st fd (some (str.data.map Char.toNat))

/-! ## UdpServerImpl (src/src/platforms/linux/udp_server_impl.cpp) -/

/-- One datagram waiting in the socket's receive queue: source address and
payload (as delivered by recvfrom into the 4096-byte receive buffer). -/
structure Datagram where
  srcHost : String
  srcPort : Nat
  payload : List Nat
deriving DecidableEq

/-- A listener callback invoked synchronously on the reactor thread (the
UDP receive path uses no task queue). The session argument is the
per-datagram session synthesized from the source address; the payload is
the fresh DataBuffer copy handed to the callback. -/
inductive UdpEvt where
  | onReceive (host : String) (port : Nat) (payload : List Nat)
deriving DecidableEq

/-- Model of the UDP server around one on_read turn: the datagrams pending
in the kernel socket queue, liveness of the listener, and the
synchronously delivered callbacks so far. -/
structure UdpServerState where
  pending : List Datagram
  listenerAlive : Bool
  syncEvents : List UdpEvt
deriving DecidableEq

/-- `UdpServerImpl::HandleReceive`: clear the shared receive buffer, ensure
its capacity, then one single `recvfrom` call. A positive read
(`bytesRead > 0`, i.e. a non-empty datagram) sets the buffer size,
synthesizes a session from the datagram's source address, and, when the
listener is alive, copies the bytes into a fresh DataBuffer (copy
constructor) and calls `listener->OnReceive` directly on the reactor
thread. A zero read (`bytesRead == 0`, a zero-length datagram, which
recvfrom consumes from the socket queue) is only logged: no session, no
callback. An error return is also only logged. There is no loop: at
most one datagram is consumed per call. -/
def udpHandleReceive (st : UdpServerState) : UdpServerState :=
  match st.pending with
  | [] => st
  | d :: rest =>
    if d.payload.length = 0 then { st with pending := rest }
    else if st.listenerAlive then
      let evts := st.syncEvents ++ [UdpEvt.onReceive d.srcHost d.srcPort d.payload]
      { st with pending := rest, syncEvents := evts }
    else { st with pending := rest }

/-! ## Concrete fixtures used by witnesses and counterexamples -/

/-- All-sevens junk memory used where fresh allocations appear. -/
def junk7 : Nat → Nat := fun _ => 7

/-- A connection with one two-byte buffer queued and write armed. -/
def connW : ConnState := { sendQueue := [[7, 8]], writeEventsEnabled := true }

/-- A task queue whose worker is running (state right after Start). -/
def tqRunning : TaskQueueState :=
  { isExit := false, threadRunning := true, taskList := [] }

/-- A task queue in the stopped state (also the freshly constructed state,
since isExit_ is initialized to true). -/
def tqStopped : TaskQueueState :=
  { isExit := true, threadRunning := false, taskList := [] }

/-- A server with one accepted session on fd 5 and a live listener. -/
def srvOne : TcpServerState :=
  { backlog := [], sessions := [(5, { fd := 5, host := "10.0.0.3", port := 2000 })],
    connectionHandlers := [(5, { sendQueue := [], writeEventsEnabled := false })],
    reactorFds := [5], closedFds := [], tasks := [],
    listenerAlive := true, taskQueuePresent := true }

/-- A listening server with two connections pending in the backlog. -/
def srvBacklogTwo : TcpServerState :=
  { backlog := [{ fd := 4, host := "10.0.0.1", port := 1000 },
                { fd := 6, host := "10.0.0.2", port := 1001 }],
    sessions := [], connectionHandlers := [], reactorFds := [], closedFds := [],
    tasks := [], listenerAlive := true, taskQueuePresent := true }

/-- A UDP server with two datagrams pending in the socket queue. -/
def udpTwoPending : UdpServerState :=
  { pending := [{ srcHost := "10.0.0.9", srcPort := 5000, payload := [1, 2] },
                { srcHost := "10.0.0.9", srcPort := 5000, payload := [3] }],
    listenerAlive := true, syncEvents := [] }

/-- An eight-byte buffer as built by `DataBuffer(8)`. -/
def bufW : DataBuffer := DataBuffer.new 8 junk7

/-! ## Theorems -/

/-- The drain loop preserves the queued byte stream: bytes handed to the
kernel this turn followed by the remaining queue equal the original
queue contents. -/
theorem processSendQueueLoop_flatten (resp : List SendResp)
    (q : List (List Nat)) :
    (processSendQueueLoop resp q).1 ++ (processSendQueueLoop resp q).2.flatten
      = q.flatten := by
  induction resp generalizing q with
  | nil => cases q <;> simp [processSendQueueLoop]
  | cons r rs ih =>
    cases q with
    | nil => simp [processSendQueueLoop]
    | cons buf q =>
      cases r with
      | ok n =>
        by_cases h : n = buf.length
        · simp only [processSendQueueLoop, if_pos h, List.flatten_cons]
          rw [List.append_assoc, ih]
        · simp only [processSendQueueLoop, if_neg h, List.flatten_cons]
          rw [← List.append_assoc, List.take_append_drop]
      | errAgain => simp [processSendQueueLoop]
      | errOther => simp [processSendQueueLoop]

/-- C1: For every TCP connection send queue, the on_write drain
(ProcessSendQueue) preserves the queued byte stream: after any single
drain turn, the bytes transmitted in that turn followed by the
concatenation of the remaining queued buffers equal the concatenation of
the buffers queued before the turn (a partial write replaces the front
buffer by exactly its unsent tail, which is what the drain loop's
partial-write branch does), and whenever the queue becomes empty the
WRITE interest is disarmed. -/
theorem tcp_processSendQueue_preserves_stream (resp : List SendResp)
    (c : ConnState) :
    (processSendQueue resp c).1 ++
        (processSendQueue resp c).2.sendQueue.flatten = c.sendQueue.flatten ∧
    ((processSendQueue resp c).2.sendQueue = [] →
      (processSendQueue resp c).2.writeEventsEnabled = false) := by
  constructor
  · simpa [processSendQueue] using
      processSendQueueLoop_flatten resp c.sendQueue
  · intro h
    simp only [processSendQueue] at h ⊢
    simp [h]

/-- Witness for C1: a full write of the single queued buffer empties the
queue and disarms write interest; the transmitted bytes are the queued
bytes. -/
theorem tcp_processSendQueue_preserves_stream_witness :
    (processSendQueue [SendResp.ok 2] connW).1 = [7, 8] ∧
    (processSendQueue [SendResp.ok 2] connW).2.writeEventsEnabled = false :=
  ⟨by decide,
   (tcp_processSendQueue_preserves_stream [SendResp.ok 2] connW).2 (by decide)⟩

/-- C7: Start on an already-running queue and Stop on an already-stopped
queue are observational no-ops that return success (0). -/
theorem taskQueue_start_stop_idempotent (s : TaskQueueState) :
    (s.threadRunning = true → TaskQueue.start s = (0, s)) ∧
    (s.isExit = true → TaskQueue.stop s = (0, s)) := by
  constructor <;> intro h <;> simp [TaskQueue.start, TaskQueue.stop, h]

/-- Witness for C7 at concrete states: a running queue and a stopped one. -/
theorem taskQueue_start_stop_idempotent_witness :
    TaskQueue.start tqRunning = (0, tqRunning) ∧
    TaskQueue.stop tqStopped = (0, tqStopped) :=
  ⟨(taskQueue_start_stop_idempotent tqRunning).1 rfl,
   (taskQueue_start_stop_idempotent tqStopped).2 rfl⟩

/-- C8: every send overload rejects a null or empty payload with a false
return and leaves the server state (hence every connection's send queue
and write-armed flag) unchanged; QueueSend itself is a no-op on such
input. -/
theorem tcpServerSend_rejects_empty (st : TcpServerState) (fd : Nat)
    (c : ConnState) (str : String) :
    tcpServerSend st fd none = (false, st) ∧
    tcpServerSend st fd (some []) = (false, st) ∧
    tcpServerSendBytes st fd none = (false, st) ∧
    tcpServerSendBytes st fd (some []) = (false, st) ∧
    (str = "" → tcpServerSendString st fd str = (false, st)) ∧
    queueSend c none = c ∧ queueSend c (some []) = c := by
  refine ⟨rfl, by simp [tcpServerSend], rfl, by simp [tcpServerSendBytes],
    ?_, rfl, by simp [queueSend]⟩
  intro h
  simp [tcpServerSendString, h]

/-- Witness for C8: empty-string send on a server with a live session. -/
theorem tcpServerSend_rejects_empty_witness :
    tcpServerSendString srvOne 5 "" = (false, srvOne) ∧
    tcpServerSend srvOne 5 (some []) = (false, srvOne) :=
  ⟨(tcpServerSend_rejects_empty srvOne 5 connW "").2.2.2.2.1 rfl,
   (tcpServerSend_rejects_empty srvOne 5 connW "").2.1⟩

/-- Membership in the sorted insertion. -/
theorem mem_insertByTime (a item : Nat × Nat) (l : List (Nat × Nat)) :
    a ∈ insertByTime item l ↔ a = item ∨ a ∈ l := by
  induction l with
  | nil => simp [insertByTime]
  | cons x xs ih =>
    by_cases h : item.2 < x.2
    · rw [insertByTime, if_pos h]
      exact List.mem_cons
    · rw [insertByTime, if_neg h]
      simp only [List.mem_cons, ih]
      tauto

/-- The insertion keeps the task list sorted by execution time. -/
theorem insertByTime_pairwise (item : Nat × Nat) (l : List (Nat × Nat))
    (h : l.Pairwise (fun a b => a.2 ≤ b.2)) :
    (insertByTime item l).Pairwise (fun a b => a.2 ≤ b.2) := by
  induction l with
  | nil => simp [insertByTime]
  | cons x xs ih =>
    rcases List.pairwise_cons.mp h with ⟨hx, hxs⟩
    by_cases hc : item.2 < x.2
    · rw [insertByTime, if_pos hc]
      refine List.pairwise_cons.mpr ⟨?_, h⟩
      intro y hy
      rcases List.mem_cons.mp hy with rfl | hy'
      · exact Nat.le_of_lt hc
      · exact Nat.le_trans (Nat.le_of_lt hc) (hx y hy')
    · rw [insertByTime, if_neg hc]
      refine List.pairwise_cons.mpr ⟨?_, ih hxs⟩
      intro y hy
      rcases (mem_insertByTime y item xs).mp hy with rfl | hy'
      · exact Nat.le_of_not_lt hc
      · exact hx y hy'

/-- Counterexample for C5: on a started (not stopped) queue, a non-null
task with delay 0 (well under the 10-second bound) is still rejected
when the clock reading makes `delayUs * 1000 + curTimeNs` overflow
uint64, a failure case the claim's "otherwise ... returns success" does
not allow. -/
theorem enqueueTask_overflow_counterexample :
    tqRunning.isExit = false ∧ (0 : Nat) < MAX_DELAY_US ∧
    TaskQueue.enqueueTask tqRunning (some 1) false 0 UINT64_MAX
      = (-1, tqRunning) := by
  refine ⟨rfl, by decide, ?_⟩
  simp [TaskQueue.enqueueTask, tqRunning, MAX_DELAY_US]

/-- C5 (amended): EnqueueTask fails on a null task, on delay_us at or above
10_000_000 (the boundary value itself rejected), on a stopped queue, and
additionally when `delay_us * 1000 + now_ns` would overflow the 64-bit
nanosecond clock (with cancel-and-drop already applied in that case);
otherwise it computes execute_time_ns = now_ns + delay_us * 1000, inserts
the task into the pending list in execution-time order, wakes the worker,
and returns success. Sorted order of the list is preserved in all cases. -/
theorem enqueueTask_spec (s : TaskQueueState) (t : Nat)
    (cancelNotExecuted : Bool) (delayUs curTimeNs : Nat) :
    (TaskQueue.enqueueTask s none cancelNotExecuted delayUs curTimeNs
       = (-1, s)) ∧
    (MAX_DELAY_US ≤ delayUs →
      TaskQueue.enqueueTask s (some t) cancelNotExecuted delayUs curTimeNs
        = (-1, s)) ∧
    (s.isExit = true → delayUs < MAX_DELAY_US →
      TaskQueue.enqueueTask s (some t) cancelNotExecuted delayUs curTimeNs
        = (-1, s)) ∧
    (s.isExit = false → delayUs < MAX_DELAY_US →
      UINT64_MAX - delayUs * US_TO_NS ≤ curTimeNs →
      TaskQueue.enqueueTask s (some t) cancelNotExecuted delayUs curTimeNs
        = (-1, if cancelNotExecuted then { s with taskList := [] } else s)) ∧
    (s.isExit = false → delayUs < MAX_DELAY_US →
      curTimeNs < UINT64_MAX - delayUs * US_TO_NS →
      TaskQueue.enqueueTask s (some t) cancelNotExecuted delayUs curTimeNs
        = (0, { s with
            taskList := insertByTime (t, delayUs * US_TO_NS + curTimeNs)
              (if cancelNotExecuted then [] else s.taskList) })) ∧
    (s.taskList.Pairwise (fun a b => a.2 ≤ b.2) →
      (TaskQueue.enqueueTask s (some t) cancelNotExecuted delayUs
          curTimeNs).2.taskList.Pairwise (fun a b => a.2 ≤ b.2)) := by
  refine ⟨rfl, ?_, ?_, ?_, ?_, ?_⟩
  · intro h
    simp [TaskQueue.enqueueTask, h]
  · intro hexit hd
    simp [TaskQueue.enqueueTask, Nat.not_le.mpr hd, hexit]
  · intro hexit hd hov
    cases cancelNotExecuted <;>
      simp [TaskQueue.enqueueTask, Nat.not_le.mpr hd, hexit, hov]
  · intro hexit hd hov
    cases cancelNotExecuted <;>
      simp [TaskQueue.enqueueTask, Nat.not_le.mpr hd, hexit,
        Nat.not_le.mpr hov]
  · intro hsorted
    by_cases hd : MAX_DELAY_US ≤ delayUs
    · simpa [TaskQueue.enqueueTask, hd] using hsorted
    · by_cases hexit : s.isExit = true
      · simpa [TaskQueue.enqueueTask, hd, hexit] using hsorted
      · by_cases hov : UINT64_MAX - delayUs * US_TO_NS ≤ curTimeNs
        · cases cancelNotExecuted
          · simpa [TaskQueue.enqueueTask, hd, hexit, hov] using hsorted
          · simp [TaskQueue.enqueueTask, hd, hexit, hov]
        · cases cancelNotExecuted
          · simp only [TaskQueue.enqueueTask, if_neg hd, hexit,
              Bool.false_eq_true, if_false, if_neg hov]
            exact insertByTime_pairwise _ _ hsorted
          · simp only [TaskQueue.enqueueTask, if_neg hd, hexit,
              Bool.false_eq_true, if_false, if_true, if_neg hov]
            exact insertByTime_pairwise _ _ List.Pairwise.nil

/-- Witness for C5: on a running queue, enqueueing task 3 with a 5 us delay
at clock reading 100 ns succeeds and lands at execute time 5100 ns. -/
theorem enqueueTask_spec_witness :
    TaskQueue.enqueueTask tqRunning (some 3) false 5 100
      = (0, { tqRunning with taskList := [(3, 5100)] }) := by
  have h := (enqueueTask_spec tqRunning 3 false 5 100).2.2.2.2.1 rfl
    (by decide) (by decide)
  simpa [insertByTime] using h

/-- SetSize to 0 keeps the capacity and zeroes the size. -/
theorem setSize_zero_spec (b : DataBuffer) (junk : Nat → Nat) :
    (b.setSize 0 junk).size = 0 ∧ (b.setSize 0 junk).capacity = b.capacity := by
  unfold DataBuffer.setSize
  rw [if_pos (Nat.zero_le _)]
  split <;> simp

/-- A freshly constructed DataBuffer has size 0. -/
theorem new_size (len : Nat) (junk : Nat → Nat) :
    (DataBuffer.new len junk).size = 0 := by
  unfold DataBuffer.new
  split <;> rfl

/-- A freshly constructed DataBuffer of nonzero length has capacity
`align len`. -/
theorem new_capacity (len : Nat) (junk : Nat → Nat) (h : len ≠ 0) :
    (DataBuffer.new len junk).capacity = align len := by
  unfold DataBuffer.new
  rw [if_neg h]

/-- C6: PoolAlloc returns a buffer of capacity at least the requested size
with size 0; a request above the 4096-byte pool block bypasses the pool
(plain-delete deleter, pool untouched); a request at or below it takes
the thread-local tier first, then the global tier, and only allocates a
fresh 4096-capacity block when both are empty. On release, PoolFree
recycles only pool-block-sized buffers: into the thread-local tier below
32 entries, else into the global tier below 1024 entries, else the
buffer is freed. -/
theorem poolAlloc_poolFree_spec (len : Nat) (pool : PoolState)
    (junk : Nat → Nat) (b : DataBuffer) (hwf : PoolWF pool) :
    (len ≤ (poolAlloc len pool junk).1.capacity ∧
      (poolAlloc len pool junk).1.size = 0) ∧
    (POOL_BLOCK_SIZE < len →
      (poolAlloc len pool junk).2.1 = false ∧
        (poolAlloc len pool junk).2.2 = pool) ∧
    (len ≤ POOL_BLOCK_SIZE → (poolAlloc len pool junk).2.1 = true) ∧
    (len ≤ POOL_BLOCK_SIZE → pool.tLocalPool = [] → pool.gBufferPool = [] →
      (poolAlloc len pool junk).1.capacity = POOL_BLOCK_SIZE ∧
        (poolAlloc len pool junk).2.2 = pool) ∧
    (∀ b0 rest, len ≤ POOL_BLOCK_SIZE → pool.tLocalPool = b0 :: rest →
      (poolAlloc len pool junk).1 = b0.setSize 0 junk ∧
        (poolAlloc len pool junk).2.2 = { pool with tLocalPool := rest }) ∧
    (∀ b0 rest, len ≤ POOL_BLOCK_SIZE → pool.tLocalPool = [] →
        pool.gBufferPool = b0 :: rest →
      (poolAlloc len pool junk).1 = b0.setSize 0 junk ∧
        (poolAlloc len pool junk).2.2 = { pool with gBufferPool := rest }) ∧
    (b.capacity ≠ POOL_BLOCK_SIZE → poolFree b pool = (pool, true)) ∧
    (b.capacity = POOL_BLOCK_SIZE →
        pool.tLocalPool.length < POOL_LOCAL_MAX →
      poolFree b pool =
        ({ pool with tLocalPool := b.clear :: pool.tLocalPool }, false)) ∧
    (b.capacity = POOL_BLOCK_SIZE →
        POOL_LOCAL_MAX ≤ pool.tLocalPool.length →
        pool.gBufferPool.length < POOL_GLOBAL_MAX →
      poolFree b pool =
        ({ pool with gBufferPool := b.clear :: pool.gBufferPool }, false)) ∧
    (b.capacity = POOL_BLOCK_SIZE →
        POOL_LOCAL_MAX ≤ pool.tLocalPool.length →
        POOL_GLOBAL_MAX ≤ pool.gBufferPool.length →
      poolFree b pool = (pool, true)) := by
  refine ⟨?_, ?_, ?_, ?_, ?_, ?_, ?_, ?_, ?_, ?_⟩
  · by_cases hlen : POOL_BLOCK_SIZE < len
    · constructor
      · rw [show (poolAlloc len pool junk).1 = DataBuffer.new len junk by
            simp [poolAlloc, hlen]]
        rw [new_capacity len junk (by unfold POOL_BLOCK_SIZE at hlen; omega)]
        exact le_align len
      · rw [show (poolAlloc len pool junk).1 = DataBuffer.new len junk by
            simp [poolAlloc, hlen]]
        exact new_size len junk
    · rcases htl : pool.tLocalPool with _ | ⟨b0, rest⟩
      · rcases hg : pool.gBufferPool with _ | ⟨b0, rest⟩
        · constructor
          · rw [show (poolAlloc len pool junk).1
                  = DataBuffer.new POOL_BLOCK_SIZE junk by
                simp [poolAlloc, hlen, htl, hg]]
            rw [new_capacity _ junk (by decide), align_pool_block]
            exact Nat.not_lt.mp hlen
          · rw [show (poolAlloc len pool junk).1
                  = DataBuffer.new POOL_BLOCK_SIZE junk by
                simp [poolAlloc, hlen, htl, hg]]
            exact new_size _ junk
        · have hcap : b0.capacity = POOL_BLOCK_SIZE :=
            hwf.2 b0 (hg ▸ List.mem_cons_self b0 rest)
          have heq : (poolAlloc len pool junk).1 = b0.setSize 0 junk := by
            simp [poolAlloc, hlen, htl, hg]
          rw [heq]
          refine ⟨?_, (setSize_zero_spec b0 junk).1⟩
          rw [(setSize_zero_spec b0 junk).2, hcap]
          exact Nat.not_lt.mp hlen
      · have hcap : b0.capacity = POOL_BLOCK_SIZE :=
          hwf.1 b0 (htl ▸ List.mem_cons_self b0 rest)
        have heq : (poolAlloc len pool junk).1 = b0.setSize 0 junk := by
          simp [poolAlloc, hlen, htl]
        rw [heq]
        refine ⟨?_, (setSize_zero_spec b0 junk).1⟩
        rw [(setSize_zero_spec b0 junk).2, hcap]
        exact Nat.not_lt.mp hlen
  · intro h
    simp [poolAlloc, h]
  · intro h
    have hn : ¬ POOL_BLOCK_SIZE < len := Nat.not_lt.mpr h
    rcases htl : pool.tLocalPool with _ | ⟨b0, rest⟩
    · rcases hg : pool.gBufferPool with _ | ⟨b0, rest⟩ <;>
        simp [poolAlloc, hn, htl, hg]
    · simp [poolAlloc, hn, htl]
  · intro h htl hg
    have hn : ¬ POOL_BLOCK_SIZE < len := Nat.not_lt.mpr h
    constructor
    · rw [show (poolAlloc len pool junk).1
            = DataBuffer.new POOL_BLOCK_SIZE junk by
          simp [poolAlloc, hn, htl, hg]]
      rw [new_capacity _ junk (by decide)]
      exact align_pool_block
    · simp [poolAlloc, hn, htl, hg]
  · intro b0 rest h htl
    have hn : ¬ POOL_BLOCK_SIZE < len := Nat.not_lt.mpr h
    constructor <;> simp [poolAlloc, hn, htl]
  · intro b0 rest h htl hg
    have hn : ¬ POOL_BLOCK_SIZE < len := Nat.not_lt.mpr h
    constructor <;> simp [poolAlloc, hn, htl, hg]
  · intro h
    simp [poolFree, h]
  · intro h hl
    simp [poolFree, h, hl]
  · intro h hl hg
    simp [poolFree, h, Nat.not_lt.mpr hl, hg]
  · intro h hl hg
    simp [poolFree, h, Nat.not_lt.mpr hl, Nat.not_lt.mpr hg]

/-- Witness for C6 on an empty (trivially well-formed) pool: a 10-byte
request is pool-eligible and comes back with size 0 and capacity at
least 10, and releasing the 8-byte buffer `bufW` (whose capacity is not
the pool block size) frees it instead of recycling it. -/
theorem poolAlloc_poolFree_spec_witness :
    (poolAlloc 10 { tLocalPool := [], gBufferPool := [] } junk7).1.size = 0 ∧
    10 ≤ (poolAlloc 10 { tLocalPool := [], gBufferPool := [] } junk7).1.capacity ∧
    (poolFree bufW { tLocalPool := [], gBufferPool := [] }).2 = true := by
  have h := poolAlloc_poolFree_spec 10 { tLocalPool := [], gBufferPool := [] }
    junk7 bufW (by constructor <;> intro b hb <;> simp at hb)
  exact ⟨h.1.2, h.1.1, by rw [h.2.2.2.2.2.2.1 (by decide)]⟩

/-- The closing NUL-fix step does not change the size. -/
theorem nulFix_size (b : DataBuffer) : (DataBuffer.nulFix b).size = b.size := by
  unfold DataBuffer.nulFix
  split <;> rfl

/-- The closing NUL-fix step does not change the payload bytes. -/
theorem nulFix_mem_lt (b : DataBuffer) (i : Nat) (hi : i < b.size) :
    (DataBuffer.nulFix b).mem i = b.mem i := by
  unfold DataBuffer.nulFix
  split
  · simp [setByte, Nat.ne_of_lt hi]
  · rfl

/-- C9: for every DataBuffer and every non-empty byte sequence, Assign
stores exactly the sequence: afterwards the size equals the input length
and the first `length` bytes of the data are the input bytes, regardless
of the buffer's prior contents or capacity. -/
theorem dataBuffer_assign_roundtrip (b : DataBuffer) (src : List Nat)
    (junk : Nat → Nat) (h : src ≠ []) :
    (b.assign (some fun i => src.getD i 0) src.length junk).size
        = src.length ∧
    ∀ i, i < src.length →
      (b.assign (some fun i => src.getD i 0) src.length junk).mem i
        = src.getD i 0 := by
  have hlen : src.length ≠ 0 := fun hc => h (List.length_eq_zero.mp hc)
  constructor
  · by_cases hcap : b.capacity < src.length <;>
      simp [DataBuffer.assign, hlen, hcap, nulFix_size]
  · intro i hi
    by_cases hcap : b.capacity < src.length <;>
      simp only [DataBuffer.assign, if_neg hlen, hcap, if_true, if_false] <;>
      rw [nulFix_mem_lt _ i (by simpa using hi)] <;>
      simp [memcpy, hi]

/-- Witness for C9: assigning the three bytes 3, 1, 4 into an eight-byte
buffer stores exactly those bytes with size 3. -/
theorem dataBuffer_assign_roundtrip_witness :
    (bufW.assign (some fun i => [3, 1, 4].getD i 0) 3 junk7).size = 3 ∧
    (bufW.assign (some fun i => [3, 1, 4].getD i 0) 3 junk7).mem 0 = 3 ∧
    (bufW.assign (some fun i => [3, 1, 4].getD i 0) 3 junk7).mem 2 = 4 := by
  have h := dataBuffer_assign_roundtrip bufW [3, 1, 4] junk7 (by decide)
  exact ⟨h.1, h.2 0 (by decide), h.2 2 (by decide)⟩

/-- Any buffer that just went through the NUL-fix step satisfies the
NUL-termination invariant. -/
theorem nulFix_nulTerminated (b : DataBuffer) :
    nulTerminated (DataBuffer.nulFix b) := by
  unfold DataBuffer.nulFix nulTerminated
  split
  next hlt => intro _ _; simp [setByte]
  next hge => intro hlt _; exact absurd hlt hge

/-- C10: each of the DataBuffer mutators Assign, Append, SetSize and Clear
preserves the NUL-termination invariant: afterwards, whenever size is
strictly below capacity and the data pointer is non-null, the byte at
index `size` is 0, so reading the data as a C string is bounded by the
payload. -/
theorem dataBuffer_mutators_nulTerminated (b : DataBuffer)
    (p : Option (Nat → Nat)) (len : Nat) (junk : Nat → Nat)
    (hnul : nulTerminated b) :
    nulTerminated (b.assign p len junk) ∧
    nulTerminated (b.append p len junk) ∧
    nulTerminated (b.setSize len junk) ∧
    nulTerminated b.clear := by
  refine ⟨?_, ?_, ?_, ?_⟩
  · cases p with
    | none => exact hnul
    | some src =>
      by_cases hl : len = 0
      · simpa [DataBuffer.assign, hl] using hnul
      · by_cases hcap : b.capacity < len <;>
          simp only [DataBuffer.assign, if_neg hl, hcap, if_true, if_false] <;>
          exact nulFix_nulTerminated _
  · cases p with
    | none => exact hnul
    | some src =>
      by_cases hl : len = 0
      · simpa [DataBuffer.append, hl] using hnul
      · by_cases hcap : len + b.size ≤ b.capacity <;>
          simp only [DataBuffer.append, if_neg hl, hcap, if_true, if_false] <;>
          exact nulFix_nulTerminated _
  · by_cases hle : len ≤ b.capacity
    · unfold DataBuffer.setSize
      rw [if_pos hle]
      split
      next hpres =>
        intro _ _
        simp [setByte]
      next hnpres =>
        intro h1 h2
        exact absurd ⟨h2, h1⟩ hnpres
    · unfold DataBuffer.setSize
      rw [if_neg hle]
      exact nulFix_nulTerminated _
  · unfold DataBuffer.clear
    split
    next hpres =>
      intro _ _
      simp [setByte]
    next hnp =>
      intro h1 h2
      exact absurd ⟨h2, h1⟩ hnp

/-- Witness for C10: the NUL invariant concretely after assigning three
bytes into an eight-byte buffer - the byte at index 3 is 0. -/
theorem dataBuffer_mutators_nulTerminated_witness :
    (bufW.assign (some fun _ => 5) 3 junk7).mem
        (bufW.assign (some fun _ => 5) 3 junk7).size = 0 :=
  (dataBuffer_mutators_nulTerminated bufW (some fun _ => 5) 3 junk7
      (by intro h1 h2; rfl)).1
    (by decide) (by decide)

/-- Counterexample for C2: with two connections pending in the backlog, a
single on_read turn accepts only the first one - the backlog is not
drained to EAGAIN and only one session is recorded, against the claim
that all pending connections are accepted within the turn. -/
theorem tcpHandleAccept_counterexample :
    (tcpHandleAccept true srvBacklogTwo).backlog ≠ [] ∧
    (tcpHandleAccept true srvBacklogTwo).sessions.length = 1 := by
  decide

/-- C2 (amended): each on_read delivered to the TCP listener performs a
single non-blocking accept4 call, accepting at most one pending
connection per turn: an empty backlog leaves the state unchanged, and
with a pending connection, that one connection is registered with the
reactor, recorded in the handler and session maps, and an on_accept task
is enqueued; the rest of the backlog waits for later on_read turns. -/
theorem tcpHandleAccept_spec (st : TcpServerState) :
    (st.backlog = [] → ∀ regOk, tcpHandleAccept regOk st = st) ∧
    (∀ c rest, st.backlog = c :: rest → st.listenerAlive = true →
      st.taskQueuePresent = true →
      tcpHandleAccept true st = { st with
        backlog := rest,
        connectionHandlers :=
          setFd c.fd { sendQueue := [], writeEventsEnabled := false }
            st.connectionHandlers,
        reactorFds := st.reactorFds ++ [c.fd],
        sessions := st.sessions ++ [(c.fd, c)],
        tasks := st.tasks ++ [TaskEvt.onAccept c.fd c.host c.port] }) := by
  constructor
  · intro hb regOk
    simp [tcpHandleAccept, hb]
  · intro c rest hb hl hq
    simp [tcpHandleAccept, hb, hl, hq]

/-- Witness for C2's amended theorem: accepting from a two-deep backlog
takes the first connection only. -/
theorem tcpHandleAccept_spec_witness :
    tcpHandleAccept true srvBacklogTwo = { srvBacklogTwo with
      backlog := [{ fd := 6, host := "10.0.0.2", port := 1001 }],
      connectionHandlers := [(4, { sendQueue := [], writeEventsEnabled := false })],
      reactorFds := [4],
      sessions := [(4, { fd := 4, host := "10.0.0.1", port := 1000 })],
      tasks := [TaskEvt.onAccept 4 "10.0.0.1" 1000] } := by
  have h := (tcpHandleAccept_spec srvBacklogTwo).2
    { fd := 4, host := "10.0.0.1", port := 1000 }
    [{ fd := 6, host := "10.0.0.2", port := 1001 }] rfl rfl rfl
  simpa [srvBacklogTwo, setFd, lookupFd] using h

/-- Counterexample for C3: recv failing with ETIMEDOUT (which is neither
EAGAIN nor EWOULDBLOCK) leaves the server state completely unchanged -
no on_error task, no removal from the reactor, no close - against the
claim that every non-EAGAIN errno reaches the unified close path. -/
theorem tcpHandleReceive_etimedout_counterexample :
    ETIMEDOUT ≠ EAGAIN ∧ ETIMEDOUT ≠ EWOULDBLOCK ∧
    tcpHandleReceiveLoop 5 [RecvResp.err ETIMEDOUT] srvOne = srvOne := by
  refine ⟨by decide, by decide, by decide⟩

/-- C3 (amended): when recv fails with an errno other than
EAGAIN/EWOULDBLOCK and other than ETIMEDOUT (which the code logs and
silently ignores), the unified close path runs with is_error = true and
the strerror(errno) string: the handler is removed from the reactor, the
descriptor is closed, the session and handler entries are erased, and an
on_error task carrying the reason is enqueued for the user. -/
theorem tcpHandleReceive_error_closes (st : TcpServerState) (fd e : Nat)
    (rs : List RecvResp) (c : ClientInfo)
    (hea : e ≠ EAGAIN) (het : e ≠ ETIMEDOUT)
    (hs : lookupFd fd st.sessions = some c)
    (hl : st.listenerAlive = true) (hq : st.taskQueuePresent = true) :
    tcpHandleReceiveLoop fd (RecvResp.err e :: rs) st = { st with
      reactorFds := st.reactorFds.eraseP (fun x => x == fd),
      closedFds := st.closedFds ++ [fd],
      sessions := eraseFd fd st.sessions,
      connectionHandlers := eraseFd fd st.connectionHandlers,
      tasks := st.tasks ++ [TaskEvt.onError fd e] } := by
  simp [tcpHandleReceiveLoop, hea, het, tcpHandleConnectionClose, hs, hl, hq]

/-- Witness for C3's amended theorem: errno 104 (ECONNRESET) tears the
connection down and surfaces on_error with that errno's message. -/
theorem tcpHandleReceive_error_closes_witness :
    tcpHandleReceiveLoop 5 [RecvResp.err 104] srvOne = { srvOne with
      reactorFds := [], closedFds := [5], sessions := [],
      connectionHandlers := [], tasks := [TaskEvt.onError 5 104] } := by
  have h := tcpHandleReceive_error_closes srvOne 5 104 []
    { fd := 5, host := "10.0.0.3", port := 2000 }
    (by decide) (by decide) (by decide) rfl rfl
  simpa [srvOne, eraseFd, lookupFd] using h

/-- Counterexample for C4: with two datagrams pending, one on_read turn of
the UDP server consumes and delivers only the first - recvfrom is not
looped until the socket drains, against the claim. -/
theorem udpHandleReceive_counterexample :
    (udpHandleReceive udpTwoPending).pending ≠ [] ∧
    (udpHandleReceive udpTwoPending).syncEvents.length = 1 := by
  decide

/-- C4 (amended): each on_read on the UDP server socket performs a single
recvfrom; when the pending datagram is non-empty and the listener is
alive, a fresh per-peer session is synthesized from the datagram's
source address, the bytes are copied into a fresh DataBuffer, and the
listener's OnReceive is invoked synchronously on the reactor thread (no
task queue); a zero-length datagram is consumed with only a log and no
callback; the remaining datagrams stay pending for later turns. -/
theorem udpHandleReceive_single (st : UdpServerState) (d : Datagram)
    (rest : List Datagram) (hp : st.pending = d :: rest)
    (hl : st.listenerAlive = true) :
    (d.payload = [] → udpHandleReceive st = { st with pending := rest }) ∧
    (d.payload ≠ [] →
      udpHandleReceive st =
        { st with
          pending := rest
          syncEvents := st.syncEvents ++
            [UdpEvt.onReceive d.srcHost d.srcPort d.payload] }) := by
  constructor
  · intro hz
    simp [udpHandleReceive, hp, hz]
  · intro hz
    have hlen : d.payload.length ≠ 0 := fun hc => hz (List.length_eq_zero.mp hc)
    simp [udpHandleReceive, hp, hl, hlen]

/-- Witness for C4's amended theorem: the non-empty datagram at the head of
the two-pending fixture is delivered synchronously. -/
theorem udpHandleReceive_single_witness :
    udpHandleReceive udpTwoPending = { udpTwoPending with
      pending := [{ srcHost := "10.0.0.9", srcPort := 5000, payload := [3] }],
      syncEvents := [UdpEvt.onReceive "10.0.0.9" 5000 [1, 2]] } := by
  have h := (udpHandleReceive_single udpTwoPending
    { srcHost := "10.0.0.9", srcPort := 5000, payload := [1, 2] }
    [{ srcHost := "10.0.0.9", srcPort := 5000, payload := [3] }] rfl rfl).2
    (by decide)
  simpa [udpTwoPending] using h

end NetworkModel
